import Mathlib

/-!
Shallow embedding of the tyray ray tracer (geometry kernel, primitive
intersection providers, scene aggregator, recursive shading engine, and the
image driver's tone-mapping step), together with theorems settling the
claims of the specification against it.

Floating-point values are modelled as exact rationals.  The two
transcendental operations of the source (`f64::sqrt` and `f64::powf`) have no
rational realisation, so every definition that uses them is parameterised by
a function standing in for them; theorems quantify over those parameters,
and every concrete evaluation instantiates them with functions agreeing
with the true square root (resp. power) at each argument the evaluation
actually applies them to.  The one place where a claim is specifically
about IEEE special values (division by a zero direction component in the
plane intersection) is additionally modelled over `F64`, rationals extended
with infinities and NaN.
-/

namespace Tyray

/-- `Vector` from `src/main.rs` / `src/geometry.rs`: three f64 components,
modelled as exact rationals. -/
structure Vector where
  x : ℚ
  y : ℚ
  z : ℚ
deriving DecidableEq

/-- `Vector::sub` from `src/main.rs`. -/
def Vector.sub (a b : Vector) : Vector :=
  ⟨a.x - b.x, a.y - b.y, a.z - b.z⟩

/-- `Vector::add` from `src/main.rs`. -/
def Vector.add (a b : Vector) : Vector :=
  ⟨a.x + b.x, a.y + b.y, a.z + b.z⟩

/-- `Vector::scale` from `src/main.rs`. -/
def Vector.scale (a : Vector) (scalar : ℚ) : Vector :=
  ⟨a.x * scalar, a.y * scalar, a.z * scalar⟩

/-- `Vector::dot` from `src/main.rs`. -/
def Vector.dot (a b : Vector) : ℚ :=
  a.x * b.x + a.y * b.y + a.z * b.z

/-- `Vector::norm` from `src/main.rs`: `(x*x + y*y + z*z).sqrt()`, with the
square root passed in as `sq`. -/
def Vector.norm (sq : ℚ → ℚ) (a : Vector) : ℚ :=
  sq (a.x * a.x + a.y * a.y + a.z * a.z)

/-- `Vector::normalize` from `src/main.rs`: divide every component by the
norm. -/
def Vector.normalize (sq : ℚ → ℚ) (a : Vector) : Vector :=
  let n := a.norm sq
  ⟨a.x / n, a.y / n, a.z / n⟩

/-- `Vector::reflect` from `src/main.rs`:
`self.sub(&normal.scale(2.0).scale(self.dot(normal)))`. -/
def Vector.reflect (a normal : Vector) : Vector :=
  a.sub ((normal.scale 2).scale (a.dot normal))

/-- `Vector::refract` from `src/main.rs` / `src/geometry.rs`.  `sq` stands
for `f64::sqrt` (applied only to `k` after checking `0 ≤ k`). -/
def Vector.refract (sq : ℚ → ℚ) (a normal : Vector) (refractive_index : ℚ) : Vector :=
  let cosi0 := max (min (a.dot normal) 1) (-1)
  let cosi := if cosi0 < 0 then -cosi0 else cosi0
  let etai := if cosi0 < 0 then refractive_index else 1
  let etat := if cosi0 < 0 then 1 else refractive_index
  let n := if cosi0 < 0 then normal.scale (-1) else normal
  let eta := etai / etat
  let k := 1 - eta * eta * (1 - cosi * cosi)
  if k < 0 then ⟨1, 0, 0⟩
  else (a.scale eta).add (n.scale (eta * cosi - sq k))

/-- `Ray` from `src/main.rs` / `src/scene.rs`: built by plain struct
literals (no normalization) everywhere the scene code constructs one. -/
structure Ray where
  origin : Vector
  direction : Vector
deriving DecidableEq

/-- `Ray::extend` from `src/main.rs`. -/
def Ray.extend (r : Ray) (distance : ℚ) : Vector :=
  r.origin.add (r.direction.scale distance)

/-- `Material` from `src/main.rs` / `src/scene.rs`. -/
structure Material where
  diffuse_color : Vector
  specular_exponent : ℚ
  albedo_diffuse : ℚ
  albedo_reflect : ℚ
  albedo_specular : ℚ
  albedo_refract : ℚ
  refractive_index : ℚ
deriving DecidableEq

/-- `Light` from `src/main.rs` / `src/scene.rs`. -/
structure Light where
  position : Vector
  intensity : ℚ
deriving DecidableEq

/-- `Sphere` from `src/main.rs` / `src/primitives.rs`. -/
structure Sphere where
  center : Vector
  radius : ℚ
  material : Material
deriving DecidableEq

/-- `Plane` from `src/main.rs` / `src/primitives.rs`: finite horizontal
rectangle at height `y`. -/
structure Plane where
  y : ℚ
  x_min : ℚ
  x_max : ℚ
  z_min : ℚ
  z_max : ℚ
  material : Material
deriving DecidableEq

/-- The closed set of `Object`/`Traceable` implementors (`src/main.rs`
declares exactly the two impls `Sphere` and `Plane`). -/
inductive Object where
  | sphere : Sphere → Object
  | plane : Plane → Object
deriving DecidableEq

/-- `<Sphere as Object>::intersect` from `src/main.rs` lines 157-179 (also
`src/primitives.rs` lines 51-72 and `src/scene.rs` lines 152-174).  Note the
early-out condition is `d2 > self.radius` in the source — the radius, not
the squared radius.  `sq` stands for `f64::sqrt`. -/
def Sphere.intersect (sq : ℚ → ℚ) (s : Sphere) (ray : Ray) : Option ℚ :=
  let l := s.center.sub ray.origin
  let tca := l.dot ray.direction
  let d2 := l.dot l - tca * tca
  if d2 > s.radius then none
  else
    let thc := sq (s.radius * s.radius - d2)
    let t0 := tca - thc
    let t1 := tca + thc
    let t0 := if t0 < 0 then t1 else t0
    if t0 < 0 then none else some t0

/-- The quantity `d2` computed by `Sphere::intersect` (same lines of the
source), exposed for stating claims about the early-out test. -/
def Sphere.d2 (s : Sphere) (ray : Ray) : ℚ :=
  let l := s.center.sub ray.origin
  let tca := l.dot ray.direction
  l.dot l - tca * tca

/-- `<Plane as Object>::intersect` from `src/main.rs` lines 131-145 (also
`src/primitives.rs` lines 22-35), in the exact-rational model. -/
def Plane.intersect (p : Plane) (ray : Ray) : Option ℚ :=
  let d := -(ray.origin.y - p.y) / ray.direction.y
  if d ≤ 0 then none
  else
    let pt := ray.extend d
    if pt.x ≥ p.x_min ∧ pt.x ≤ p.x_max ∧ pt.z ≥ p.z_min ∧ pt.z ≤ p.z_max
    then some d else none

/-- `Object::intersect` dispatch over the two implementors. -/
def Object.intersect (sq : ℚ → ℚ) (o : Object) (ray : Ray) : Option ℚ :=
  match o with
  | .sphere s => s.intersect sq ray
  | .plane p => p.intersect ray

/-- `Object::material` dispatch over the two implementors. -/
def Object.material : Object → Material
  | .sphere s => s.material
  | .plane p => p.material

/-- `Object::normal_at` dispatch: sphere normal is
`point.sub(&self.center).normalize()`, plane normal is the constant up
vector. -/
def Object.normal_at (sq : ℚ → ℚ) (o : Object) (point : Vector) : Vector :=
  match o with
  | .sphere s => (point.sub s.center).normalize sq
  | .plane _ => ⟨0, 1, 0⟩

/-- `Scene` from `src/main.rs` / `src/scene.rs`. -/
structure Scene where
  objects : List Object
  lights : List Light
  environment_color : Vector
deriving DecidableEq

/-- The exact value of `std::f64::MAX` = (2^53 − 1)·2^971, the initial
`min_dist` of `Scene::intersect`. -/
def f64MAX : ℚ := (2 ^ 53 - 1) * 2 ^ 971

/-- `Scene::intersect` from `src/main.rs` lines 197-212 (also
`src/scene.rs` lines 49-64): linear scan keeping the strictly smaller
distance, starting from `min_dist = f64::MAX` and no hit object. -/
def Scene.intersect (sq : ℚ → ℚ) (s : Scene) (ray : Ray) : ℚ × Option Object :=
  s.objects.foldl
    (fun acc object =>
      match object.intersect sq ray with
      | some distance => if distance < acc.1 then (distance, some object) else acc
      | none => acc)
    (f64MAX, none)

/-- The shadow ray cast in the light loop of `Scene::cast_ray`
(`src/main.rs` lines 228-237): direction towards the light, origin the hit
point offset by 0.001 along the normal, against it when the light arrives
from the back side. -/
def shadowRay (sq : ℚ → ℚ) (point normal : Vector) (light : Light) : Ray :=
  let light_direction := (light.position.sub point).normalize sq
  let shadow_origin :=
    if light_direction.dot normal < 0 then point.sub (normal.scale (1 / 1000))
    else point.add (normal.scale (1 / 1000))
  ⟨shadow_origin, light_direction⟩

/-- The per-light body of the shading loop in `Scene::cast_ray`
(`src/main.rs` lines 227-244, `src/scene.rs` lines 79-96), as a transformer
of the `(diffuse_intensity, specular_intensity)` accumulator pair; the loop
itself is the left fold of this body over `scene.lights`.  `pw` stands for
`f64::powf`. -/
def shadeLight (sq : ℚ → ℚ) (pw : ℚ → ℚ → ℚ) (s : Scene) (ray : Ray)
    (point normal : Vector) (material : Material)
    (acc : ℚ × ℚ) (light : Light) : ℚ × ℚ :=
  let light_direction := (light.position.sub point).normalize sq
  let light_distance := (light.position.sub point).norm sq
  let shadow := s.intersect sq (shadowRay sq point normal light)
  if shadow.2.isNone ∨ shadow.1 > light_distance then
    (acc.1 + light.intensity * max (light_direction.dot normal) 0,
     acc.2 + pw (max ((((light_direction.scale (-1)).reflect normal).scale (-1)).dot ray.direction) 0)
               material.specular_exponent * light.intensity)
  else acc

/-- The body of the hit branch of `Scene::cast_ray` (`src/main.rs` lines
219-266): local illumination with shadows plus the reflected and refracted
contributions, with the two recursive casts abstracted as `recur` (both
`Scene.cast_ray` and its fuel-indexed variant instantiate it). -/
def shadeHit (sq : ℚ → ℚ) (pw : ℚ → ℚ → ℚ) (s : Scene) (ray : Ray)
    (min_dist : ℚ) (object : Object) (recur : Ray → Vector) : Vector :=
  let material := object.material
  let point := ray.extend min_dist
  let normal := object.normal_at sq point
  let intensity := s.lights.foldl (shadeLight sq pw s ray point normal material) (0, 0)
  let diffuse_color := (material.diffuse_color.scale intensity.1).scale material.albedo_diffuse
  let specular_color := ((Vector.mk 1 1 1).scale intensity.2).scale material.albedo_specular
  let reflect_direction := (ray.direction.reflect normal).normalize sq
  let reflect_origin :=
    if reflect_direction.dot normal < 0 then point.sub (normal.scale (1 / 1000))
    else point.add (normal.scale (1 / 1000))
  let reflect_color := (recur ⟨reflect_origin, reflect_direction⟩).scale material.albedo_reflect
  let refract_direction := ((ray.direction.refract sq normal material.refractive_index).normalize sq)
  let refract_origin :=
    if refract_direction.dot normal < 0 then point.sub (normal.scale (1 / 1000))
    else point.add (normal.scale (1 / 1000))
  let refract_color := (recur ⟨refract_origin, refract_direction⟩).scale material.albedo_refract
  ((diffuse_color.add specular_color).add reflect_color).add refract_color

/-- `Scene::cast_ray` from `src/main.rs` lines 214-271 (also
`src/scene.rs` lines 66-123): if `depth > 0` intersect the scene and shade
a hit with recursive calls at `depth - 1`; otherwise (and on a miss) return
the flat environment color. -/
def Scene.cast_ray (sq : ℚ → ℚ) (pw : ℚ → ℚ → ℚ) (s : Scene) (ray : Ray)
    (depth : ℤ) : Vector :=
  if depth > 0 then
    let hit := s.intersect sq ray
    match hit.2 with
    | some object =>
        shadeHit sq pw s ray hit.1 object
          (fun r => Scene.cast_ray sq pw s r (depth - 1))
    | none => s.environment_color
  else s.environment_color
termination_by depth.toNat
decreasing_by omega

/-- Fuel-indexed variant of `Scene.cast_ray`, identical except that the
recursion consumes one unit of explicit fuel per level and returns the
environment color when the fuel runs out.  Used to state that the recursion
depth of `cast_ray` never exceeds `depth.toNat`. -/
def Scene.castRayFuel (sq : ℚ → ℚ) (pw : ℚ → ℚ → ℚ) (s : Scene) (ray : Ray)
    (depth : ℤ) (fuel : ℕ) : Vector :=
  match fuel with
  | 0 => s.environment_color
  | f + 1 =>
    if depth > 0 then
      let hit := s.intersect sq ray
      match hit.2 with
      | some object =>
          shadeHit sq pw s ray hit.1 object
            (fun r => Scene.castRayFuel sq pw s r (depth - 1) f)
      | none => s.environment_color
    else s.environment_color

/-- The tone-mapping step of `main` (`src/main.rs` lines 374-378): if the
maximum channel exceeds 1.0, rescale the color by its reciprocal. -/
def toneMap (color : Vector) : Vector :=
  let m := max color.x (max color.y color.z)
  if m > 1 then color.scale (1 / m) else color

/-- Spec-side nearest-hit query, written from the specification's words for
`Scene::intersect`: the minimum reported hit distance together with the
primitive attaining it, the earlier primitive in insertion order winning
exact ties, and nothing when no primitive reports a hit. -/
def nearestHit (hit : Object → Option ℚ) : List Object → Option (ℚ × Object)
  | [] => none
  | o :: rest =>
    match hit o, nearestHit hit rest with
    | none, r => r
    | some d, none => some (d, o)
    | some d, some (e, p) => if d ≤ e then some (d, o) else some (e, p)

/-- An IEEE-754 double in the exact model: a finite rational (rounding is
irrelevant to the claims evaluated over this type), one of the two
infinities, or NaN.  The single finite zero plays the role of `+0.0`. -/
inductive F64 where
  | fin : ℚ → F64
  | pinf : F64
  | ninf : F64
  | nan : F64
deriving DecidableEq

/-- IEEE addition on `F64` (finite-finite addition taken exact). -/
def fadd : F64 → F64 → F64
  | .fin a, .fin b => .fin (a + b)
  | .fin _, .pinf => .pinf
  | .fin _, .ninf => .ninf
  | .pinf, .fin _ => .pinf
  | .ninf, .fin _ => .ninf
  | .pinf, .pinf => .pinf
  | .ninf, .ninf => .ninf
  | .pinf, .ninf => .nan
  | .ninf, .pinf => .nan
  | .nan, _ => .nan
  | _, .nan => .nan

/-- IEEE multiplication on `F64` (finite-finite multiplication taken
exact); zero times an infinity is NaN. -/
def fmul : F64 → F64 → F64
  | .fin a, .fin b => .fin (a * b)
  | .fin a, .pinf => if a > 0 then .pinf else if a < 0 then .ninf else .nan
  | .fin a, .ninf => if a > 0 then .ninf else if a < 0 then .pinf else .nan
  | .pinf, .fin a => if a > 0 then .pinf else if a < 0 then .ninf else .nan
  | .ninf, .fin a => if a > 0 then .ninf else if a < 0 then .pinf else .nan
  | .pinf, .pinf => .pinf
  | .ninf, .ninf => .pinf
  | .pinf, .ninf => .ninf
  | .ninf, .pinf => .ninf
  | .nan, _ => .nan
  | _, .nan => .nan

/-- IEEE division on `F64` restricted to the cases the plane intersection
exercises: a finite numerator over a finite denominator, with division by
the (positive) zero giving a signed infinity and `0/0` giving NaN. -/
def fdiv : F64 → F64 → F64
  | .fin a, .fin b =>
      if b = 0 then (if a = 0 then .nan else if a > 0 then .pinf else .ninf)
      else .fin (a / b)
  | .nan, _ => .nan
  | _, .nan => .nan
  | .pinf, .fin _ => .pinf
  | .ninf, .fin _ => .ninf
  | .fin _, .pinf => .fin 0
  | .fin _, .ninf => .fin 0
  | _, _ => .nan

/-- IEEE `≤` comparison on `F64`: any comparison involving NaN is false. -/
def fle : F64 → F64 → Bool
  | .fin a, .fin b => a ≤ b
  | .nan, _ => false
  | _, .nan => false
  | .ninf, _ => true
  | _, .pinf => true
  | .pinf, .fin _ => false
  | .pinf, .ninf => false
  | .fin _, .ninf => false

/-- `<Plane as Object>::intersect` (`src/main.rs` lines 131-145) once more,
with the intermediate arithmetic carried out in `F64` so that the division
by a zero `direction.y` follows IEEE semantics (infinities and NaN) instead
of the rational convention.  The ray and plane fields themselves are finite
doubles. -/
def Plane.intersectF (p : Plane) (ray : Ray) : Option F64 :=
  let d := fdiv (.fin (-(ray.origin.y - p.y))) (.fin ray.direction.y)
  if fle d (.fin 0) then none
  else
    let ptx := fadd (.fin ray.origin.x) (fmul (.fin ray.direction.x) d)
    let ptz := fadd (.fin ray.origin.z) (fmul (.fin ray.direction.z) d)
    if fle (.fin p.x_min) ptx ∧ fle ptx (.fin p.x_max) ∧
       fle (.fin p.z_min) ptz ∧ fle ptz (.fin p.z_max)
    then some d else none

/-- A concrete material (values immaterial to intersection, which never
reads the material). -/
def mat0 : Material := ⟨⟨0, 0, 0⟩, 1, 0, 0, 0, 0, 1⟩

/-- C1: false on the code.  The sphere early-out tests `d2 > self.radius`,
not `d2 > radius * radius`: for the sphere with center (3, 0, −10) and
radius 6 and the ray from the origin along (0, 0, −1), the squared
center-line distance d² = 9 is at most radius² = 36 (per the claim the code
should proceed to the candidate roots and report a hit), yet the code
returns no hit because 9 > 6.  Every number here is exactly representable
in f64 and every operation exact, so the rational evaluation coincides with
the source bit for bit. -/
theorem sphere_early_out_uses_radius_not_radius_squared :
    ∀ sq : ℚ → ℚ,
      Sphere.intersect sq ⟨⟨3, 0, -10⟩, 6, mat0⟩ ⟨⟨0, 0, 0⟩, ⟨0, 0, -1⟩⟩ = none ∧
      Sphere.d2 ⟨⟨3, 0, -10⟩, 6, mat0⟩ ⟨⟨0, 0, 0⟩, ⟨0, 0, -1⟩⟩ = 9 ∧
      (9 : ℚ) ≤ 6 * 6 := by
  intro sq
  refine ⟨?_, ?_, by norm_num⟩
  · norm_num [Sphere.intersect, Vector.sub, Vector.dot]
  · norm_num [Sphere.d2, Vector.sub, Vector.dot]

/-- C2: `cast_ray(ray, 0)` returns the scene's flat environment color (the
environment sample of this texture-less renderer) for every ray and every
primitive list — the depth guard fails before any intersection test, so the
result does not depend on `objects`. -/
theorem cast_ray_depth_zero_is_environment_sample
    (sq : ℚ → ℚ) (pw : ℚ → ℚ → ℚ) (objects : List Object)
    (lights : List Light) (env : Vector) (ray : Ray) :
    Scene.cast_ray sq pw ⟨objects, lights, env⟩ ray 0 = env := by
  unfold Scene.cast_ray
  norm_num

/-- C10: for every depth ≤ 0, zero or strictly negative, `cast_ray` returns
the flat environment color, independently of the primitive list (no scene
intersection is consulted). -/
theorem cast_ray_nonpositive_depth_is_environment
    (sq : ℚ → ℚ) (pw : ℚ → ℚ → ℚ) (objects : List Object)
    (lights : List Light) (env : Vector) (ray : Ray) (depth : ℤ)
    (h : depth ≤ 0) :
    Scene.cast_ray sq pw ⟨objects, lights, env⟩ ray depth = env := by
  unfold Scene.cast_ray
  rw [if_neg (by omega)]

/-- Witness for C10 at the concrete depth −3 and the environment color of
the hardcoded scene, with a sphere present that the ray would otherwise
hit. -/
theorem cast_ray_nonpositive_depth_is_environment_witness :
    (-3 : ℤ) ≤ 0 ∧
    Scene.cast_ray (fun _ => 0) (fun _ _ => 0)
      ⟨[Object.sphere ⟨⟨0, 0, -10⟩, 2, mat0⟩], [], ⟨1/5, 7/10, 4/5⟩⟩
      ⟨⟨0, 0, 0⟩, ⟨0, 0, -1⟩⟩ (-3) = ⟨1/5, 7/10, 4/5⟩ :=
  ⟨by norm_num,
   cast_ray_nonpositive_depth_is_environment _ _ _ _ _ _ (-3) (by norm_num)⟩

/-- C5: `refract` follows Snell's law as the specification words it.  With
`c` the clamped incidence cosine, the indices swapped (η = η_t/1 = η_t) and
the normal flipped exactly when `c < 0` fails — i.e. when the sign of the
cosine says the ray is inside the medium — and `k = 1 − η²(1 − c²)`, the
result is the fixed degenerate direction (1, 0, 0) when `k < 0` (total
internal reflection) and `η·v + (η·|c| − √k)·n` otherwise. -/
theorem refract_matches_snell_with_tir_sentinel
    (sq : ℚ → ℚ) (v n : Vector) (ri : ℚ) :
    Vector.refract sq v n ri =
      (let c := max (min (v.dot n) 1) (-1)
       let eta := if c < 0 then ri else 1 / ri
       let nf := if c < 0 then n.scale (-1) else n
       let k := 1 - eta * eta * (1 - c * c)
       if k < 0 then ⟨1, 0, 0⟩
       else (v.scale eta).add (nf.scale (eta * |c| - sq k))) := by
  unfold Vector.refract
  by_cases h : max (min (v.dot n) 1) (-1) < 0
  · simp only [if_pos h, div_one, neg_mul_neg, abs_of_neg h]
  · simp only [if_neg h, one_div, abs_of_nonneg (not_lt.mp h)]

/-- C7: a ray whose direction has a zero y component never hits the plane,
in the IEEE model: the division by `direction.y` produces NaN (when the
origin is exactly at the plane's height) or a signed infinity, and in every
case the `d ≤ 0` rejection or the rectangular bounds check fails the hit. -/
theorem plane_parallel_ray_no_hit (p : Plane) (ray : Ray)
    (h : ray.direction.y = 0) :
    Plane.intersectF p ray = none := by
  unfold Plane.intersectF
  rw [h]
  generalize -(ray.origin.y - p.y) = a
  rcases lt_trichotomy a 0 with hn | hn | hn
  · -- negative numerator: d = −∞, rejected by d ≤ 0
    simp [fdiv, fle, hn.ne, hn.not_lt]
  · -- zero numerator: d = NaN, bounds comparisons all false
    simp [fdiv, fle, fmul, fadd, hn]
  · -- positive numerator: d = +∞
    rcases lt_trichotomy ray.direction.x 0 with hx | hx | hx
    · simp [fdiv, fle, fmul, fadd, hn.ne.symm, hn, hx, hx.not_lt]
    · simp [fdiv, fle, fmul, fadd, hn.ne.symm, hn, hx]
    · simp [fdiv, fle, fmul, fadd, hn.ne.symm, hn, hx, hx.not_lt]

/-- Witness for C7: a concrete horizontal ray over a concrete plane,
including the 0/0 case (origin exactly at the plane's height). -/
theorem plane_parallel_ray_no_hit_witness :
    (Ray.mk ⟨0, 5, 0⟩ ⟨1, 0, 0⟩).direction.y = 0 ∧
    Plane.intersectF ⟨0, -1, 1, -1, 1, mat0⟩ ⟨⟨0, 5, 0⟩, ⟨1, 0, 0⟩⟩ = none ∧
    (Ray.mk ⟨0, 0, 0⟩ ⟨1, 0, 0⟩).direction.y = 0 ∧
    Plane.intersectF ⟨0, -1, 1, -1, 1, mat0⟩ ⟨⟨0, 0, 0⟩, ⟨1, 0, 0⟩⟩ = none :=
  ⟨rfl, plane_parallel_ray_no_hit _ _ rfl, rfl,
   plane_parallel_ray_no_hit _ _ rfl⟩

/-- C9: tone mapping.  When the maximum channel `m` exceeds 1, all three
channels are multiplied by `1/m` (so multiplying back by `m` recovers the
input — ratios are preserved) and the maximum channel of the result is
exactly 1; a color with maximum channel at most 1 is unchanged; and the
concrete input (2, 1, 1/2) maps to (1, 1/2, 1/4). -/
theorem tone_map_uniform_rescale (c : Vector) :
    (max c.x (max c.y c.z) > 1 →
      toneMap c = ⟨c.x * (1 / max c.x (max c.y c.z)),
                   c.y * (1 / max c.x (max c.y c.z)),
                   c.z * (1 / max c.x (max c.y c.z))⟩ ∧
      max (toneMap c).x (max (toneMap c).y (toneMap c).z) = 1 ∧
      (toneMap c).x * max c.x (max c.y c.z) = c.x ∧
      (toneMap c).y * max c.x (max c.y c.z) = c.y ∧
      (toneMap c).z * max c.x (max c.y c.z) = c.z) ∧
    (max c.x (max c.y c.z) ≤ 1 → toneMap c = c) ∧
    toneMap ⟨2, 1, 1/2⟩ = ⟨1, 1/2, 1/4⟩ := by
  refine ⟨fun hm => ?_, fun hm => ?_, ?_⟩
  · have hm0 : (0:ℚ) < max c.x (max c.y c.z) := lt_trans one_pos hm
    have hne : max c.x (max c.y c.z) ≠ 0 := ne_of_gt hm0
    have ht : toneMap c = ⟨c.x * (1 / max c.x (max c.y c.z)),
                   c.y * (1 / max c.x (max c.y c.z)),
                   c.z * (1 / max c.x (max c.y c.z))⟩ := by
      simp only [toneMap]
      rw [if_pos hm]
      rfl
    refine ⟨ht, ?_, ?_, ?_, ?_⟩
    · rw [ht]
      show max (c.x * (1 / _)) (max (c.y * (1 / _)) (c.z * (1 / _))) = 1
      simp only [mul_one_div, max_div_div_right hm0.le]
      exact div_self hne
    · rw [ht]
      show c.x * (1 / _) * _ = c.x
      field_simp
    · rw [ht]
      show c.y * (1 / _) * _ = c.y
      field_simp
    · rw [ht]
      show c.z * (1 / _) * _ = c.z
      field_simp
  · simp [toneMap, Vector.scale, not_lt.mpr hm]
  · norm_num [toneMap, Vector.scale]

/-- Witness for C9: the two implications applied at concrete colors —
the overbright (2, 1, 1/2) and the in-range (1/2, 1/4, 1). -/
theorem tone_map_uniform_rescale_witness :
    (max (2:ℚ) (max 1 (1/2)) > 1 ∧
      toneMap ⟨2, 1, 1/2⟩ = ⟨2 * (1 / max (2:ℚ) (max 1 (1/2))),
                             1 * (1 / max (2:ℚ) (max 1 (1/2))),
                             1/2 * (1 / max (2:ℚ) (max 1 (1/2)))⟩ ∧
      max (toneMap ⟨2, 1, 1/2⟩).x
        (max (toneMap ⟨2, 1, 1/2⟩).y (toneMap ⟨2, 1, 1/2⟩).z) = 1) ∧
    (max (1/2:ℚ) (max (1/4) 1) ≤ 1 ∧ toneMap ⟨1/2, 1/4, 1⟩ = ⟨1/2, 1/4, 1⟩) := by
  have h1 := (tone_map_uniform_rescale ⟨2, 1, 1/2⟩).1 (by norm_num [max_def])
  have h2 := (tone_map_uniform_rescale ⟨1/2, 1/4, 1⟩).2.1 (by norm_num [max_def])
  exact ⟨⟨by norm_num [max_def], h1.1, h1.2.1⟩, ⟨by norm_num [max_def], h2⟩⟩

/-- C6 amended: every reported hit distance is nonnegative — strictly
positive for the plane, but only nonnegative for the sphere, which can
report a hit at distance exactly zero (see the counterexample). -/
theorem hit_distances_nonnegative :
    (∀ (p : Plane) (ray : Ray) (d : ℚ), p.intersect ray = some d → 0 < d) ∧
    (∀ (sq : ℚ → ℚ) (s : Sphere) (ray : Ray) (d : ℚ),
      s.intersect sq ray = some d → 0 ≤ d) := by
  constructor
  · intro p ray d h
    simp only [Plane.intersect] at h
    split_ifs at h with h1 h2
    injection h with h
    subst h
    exact not_le.mp h1
  · intro sq s ray d h
    simp only [Sphere.intersect] at h
    split_ifs at h with h1 h2 h3 <;>
      (injection h with h; subst h; linarith)

/-- Counterexample to C6 as stated: a tangent ray whose origin lies on the
sphere reports a hit at distance exactly zero.  The sphere has center
(1, 0, 0) and radius 1; the ray starts at the origin and points along
(0, 1, 0); the sqrt argument radius² − d² is exactly 0 (third conjunct), so
instantiating the sqrt parameter with the constant 0 agrees with
`f64::sqrt` at the one point it is applied, and every operation is exact in
f64. -/
theorem sphere_hit_distance_zero_counterexample :
    Sphere.intersect (fun _ => 0) ⟨⟨1, 0, 0⟩, 1, mat0⟩ ⟨⟨0, 0, 0⟩, ⟨0, 1, 0⟩⟩
      = some 0 ∧
    Sphere.d2 ⟨⟨1, 0, 0⟩, 1, mat0⟩ ⟨⟨0, 0, 0⟩, ⟨0, 1, 0⟩⟩ = 1 ∧
    (1 : ℚ) * 1 - Sphere.d2 ⟨⟨1, 0, 0⟩, 1, mat0⟩ ⟨⟨0, 0, 0⟩, ⟨0, 1, 0⟩⟩ = 0 := by
  refine ⟨?_, ?_, ?_⟩ <;>
    norm_num [Sphere.intersect, Sphere.d2, Vector.sub, Vector.dot]

/-- Witness for the amended C6 at concrete inputs: the bounded floor plane
of the hardcoded scene hit at distance 5, and a sphere hit at distance 8
(with √4 = 2 for the sqrt parameter). -/
theorem hit_distances_nonnegative_witness :
    (Plane.intersect ⟨-3, -10, 10, -100, -3, mat0⟩
        ⟨⟨0, 0, 0⟩, ⟨0, -3/5, -4/5⟩⟩ = some 5 ∧ (0:ℚ) < 5) ∧
    (Sphere.intersect (fun _ => 2) ⟨⟨0, 0, -10⟩, 2, mat0⟩
        ⟨⟨0, 0, 0⟩, ⟨0, 0, -1⟩⟩ = some 8 ∧ (0:ℚ) ≤ 8) := by
  have hp : Plane.intersect ⟨-3, -10, 10, -100, -3, mat0⟩
      ⟨⟨0, 0, 0⟩, ⟨0, -3/5, -4/5⟩⟩ = some 5 := by
    norm_num [Plane.intersect, Ray.extend, Vector.add, Vector.scale]
  have hs : Sphere.intersect (fun _ => 2) ⟨⟨0, 0, -10⟩, 2, mat0⟩
      ⟨⟨0, 0, 0⟩, ⟨0, 0, -1⟩⟩ = some 8 := by
    norm_num [Sphere.intersect, Vector.sub, Vector.dot]
  exact ⟨⟨hp, hit_distances_nonnegative.1 _ _ 5 hp⟩,
         ⟨hs, hit_distances_nonnegative.2 _ _ _ 8 hs⟩⟩

/-- C8: the recursion of `cast_ray` is bounded by the depth parameter.  The
fuel-indexed variant, which cuts the recursion off when its explicit fuel
runs out, computes the very same color as `cast_ray` whenever the fuel is
at least `depth.toNat`: recursion only happens under the guard
`depth > 0`, always at `depth − 1`, so the recursion never goes deeper than
the initial depth (and `cast_ray` itself is total). -/
theorem cast_ray_recursion_bounded_by_depth
    (sq : ℚ → ℚ) (pw : ℚ → ℚ → ℚ) (s : Scene) :
    ∀ (fuel : ℕ) (ray : Ray) (depth : ℤ), depth.toNat ≤ fuel →
      Scene.castRayFuel sq pw s ray depth fuel =
        Scene.cast_ray sq pw s ray depth := by
  intro fuel
  induction fuel with
  | zero =>
    intro ray depth hd
    have hneg : ¬ depth > 0 := by omega
    unfold Scene.castRayFuel Scene.cast_ray
    rw [if_neg hneg]
  | succ f ih =>
    intro ray depth hd
    unfold Scene.castRayFuel Scene.cast_ray
    by_cases hpos : depth > 0
    · rw [if_pos hpos, if_pos hpos]
      have harg : (fun r => Scene.castRayFuel sq pw s r (depth - 1) f) =
          (fun r => Scene.cast_ray sq pw s r (depth - 1)) :=
        funext fun r => ih r (depth - 1) (by omega)
      rw [harg]
    · rw [if_neg hpos, if_neg hpos]

/-- Witness for C8 at fuel 5 ≥ depth 3, on a scene whose environment color
is the hardcoded (0.2, 0.7, 0.8). -/
theorem cast_ray_recursion_bounded_by_depth_witness :
    (3 : ℤ).toNat ≤ 5 ∧
    Scene.castRayFuel (fun _ => 0) (fun _ _ => 0) ⟨[], [], ⟨1/5, 7/10, 4/5⟩⟩
        ⟨⟨0, 0, 0⟩, ⟨0, 0, -1⟩⟩ 3 5 =
      Scene.cast_ray (fun _ => 0) (fun _ _ => 0) ⟨[], [], ⟨1/5, 7/10, 4/5⟩⟩
        ⟨⟨0, 0, 0⟩, ⟨0, 0, -1⟩⟩ 3 :=
  ⟨by decide,
   cast_ray_recursion_bounded_by_depth _ _ _ 5 _ 3 (by decide)⟩

/-- C4: an occluded light contributes exactly zero.  If the shadow ray of a
light hits some primitive (`isSome`) at a distance not exceeding the
distance to the light, then the loop body leaves the
`(diffuse_intensity, specular_intensity)` accumulator untouched — and,
equivalently, deleting that light from the light list does not change the
folded intensities at all. -/
theorem occluded_light_contributes_zero
    (sq : ℚ → ℚ) (pw : ℚ → ℚ → ℚ) (s : Scene) (ray : Ray)
    (point normal : Vector) (material : Material) (light : Light)
    (hsome : ((s.intersect sq (shadowRay sq point normal light)).2).isSome = true)
    (hclose : (s.intersect sq (shadowRay sq point normal light)).1
        ≤ (light.position.sub point).norm sq) :
    (∀ acc : ℚ × ℚ, shadeLight sq pw s ray point normal material acc light = acc) ∧
    (∀ (before after : List Light) (acc : ℚ × ℚ),
      (before ++ light :: after).foldl
          (shadeLight sq pw s ray point normal material) acc =
        (before ++ after).foldl
          (shadeLight sq pw s ray point normal material) acc) := by
  have h1 : ∀ acc : ℚ × ℚ,
      shadeLight sq pw s ray point normal material acc light = acc := by
    intro acc
    simp only [shadeLight]
    rw [if_neg]
    rw [not_or, not_lt]
    constructor
    · simp only [Option.isNone_iff_eq_none]
      intro hnone
      rw [hnone] at hsome
      simp at hsome
    · exact hclose
  refine ⟨h1, fun before after acc => ?_⟩
  rw [List.foldl_append, List.foldl_append, List.foldl_cons, h1]

/-- Witness for C4: a light at (0, 10, 0) seen from the origin with normal
(0, 1, 0) is blocked by a small plane at height 5; the shadow ray hits it
at distance 4.999 ≤ 10, and the loop body leaves the accumulator (7, 11)
unchanged.  The sqrt parameter is applied only to 10², where the constant
10 agrees with `f64::sqrt`. -/
theorem occluded_light_contributes_zero_witness :
    ((Scene.intersect (fun _ => 10)
        ⟨[Object.plane ⟨5, -1, 1, -1, 1, mat0⟩], [], ⟨0, 0, 0⟩⟩
        (shadowRay (fun _ => 10) ⟨0, 0, 0⟩ ⟨0, 1, 0⟩ ⟨⟨0, 10, 0⟩, 3/2⟩)).2).isSome
      = true ∧
    (Scene.intersect (fun _ => 10)
        ⟨[Object.plane ⟨5, -1, 1, -1, 1, mat0⟩], [], ⟨0, 0, 0⟩⟩
        (shadowRay (fun _ => 10) ⟨0, 0, 0⟩ ⟨0, 1, 0⟩ ⟨⟨0, 10, 0⟩, 3/2⟩)).1
      ≤ (Vector.sub ⟨0, 10, 0⟩ ⟨0, 0, 0⟩).norm (fun _ => 10) ∧
    shadeLight (fun _ => 10) (fun _ _ => 0)
        ⟨[Object.plane ⟨5, -1, 1, -1, 1, mat0⟩], [], ⟨0, 0, 0⟩⟩
        ⟨⟨0, 0, 0⟩, ⟨0, 0, -1⟩⟩ ⟨0, 0, 0⟩ ⟨0, 1, 0⟩ mat0 (7, 11) ⟨⟨0, 10, 0⟩, 3/2⟩
      = (7, 11) := by
  have hint : Scene.intersect (fun _ => 10)
      ⟨[Object.plane ⟨5, -1, 1, -1, 1, mat0⟩], [], ⟨0, 0, 0⟩⟩
      (shadowRay (fun _ => 10) ⟨0, 0, 0⟩ ⟨0, 1, 0⟩ ⟨⟨0, 10, 0⟩, 3/2⟩) =
      (4999/1000, some (Object.plane ⟨5, -1, 1, -1, 1, mat0⟩)) := by
    norm_num [Scene.intersect, shadowRay, Object.intersect, Plane.intersect,
      Vector.normalize, Vector.norm, Vector.sub, Vector.add, Vector.scale,
      Vector.dot, Ray.extend, f64MAX]
  have hsome : ((Scene.intersect (fun _ => 10)
      ⟨[Object.plane ⟨5, -1, 1, -1, 1, mat0⟩], [], ⟨0, 0, 0⟩⟩
      (shadowRay (fun _ => 10) ⟨0, 0, 0⟩ ⟨0, 1, 0⟩ ⟨⟨0, 10, 0⟩, 3/2⟩)).2).isSome
      = true := by rw [hint]; rfl
  have hclose : (Scene.intersect (fun _ => 10)
      ⟨[Object.plane ⟨5, -1, 1, -1, 1, mat0⟩], [], ⟨0, 0, 0⟩⟩
      (shadowRay (fun _ => 10) ⟨0, 0, 0⟩ ⟨0, 1, 0⟩ ⟨⟨0, 10, 0⟩, 3/2⟩)).1
      ≤ (Vector.sub ⟨0, 10, 0⟩ ⟨0, 0, 0⟩).norm (fun _ => 10) := by
    rw [hint]
    norm_num [Vector.norm, Vector.sub]
  exact ⟨hsome, hclose,
    (occluded_light_contributes_zero _ _ _ ⟨⟨0, 0, 0⟩, ⟨0, 0, -1⟩⟩ _ _ mat0 _
      hsome hclose).1 (7, 11)⟩

/-- When `nearestHit` reports nothing, no primitive reported a hit. -/
theorem nearestHit_eq_none (hit : Object → Option ℚ) :
    ∀ l : List Object, nearestHit hit l = none → ∀ o ∈ l, hit o = none := by
  intro l
  induction l with
  | nil => intro _ o ho; cases ho
  | cons a rest ih =>
    intro hn o ho
    rcases ha : hit a with _ | d <;>
      rcases hr : nearestHit hit rest with _ | ⟨e, p⟩ <;>
      simp only [nearestHit, ha, hr] at hn
    · rcases List.mem_cons.mp ho with rfl | ho2
      · exact ha
      · exact ih hr o ho2
    · exact Option.noConfusion hn
    · exact Option.noConfusion hn
    · split_ifs at hn

/-- What `nearestHit` reports is the reported hit of a member of the
list. -/
theorem nearestHit_mem (hit : Object → Option ℚ) :
    ∀ (l : List Object) (d : ℚ) (o : Object),
      nearestHit hit l = some (d, o) → o ∈ l ∧ hit o = some d := by
  intro l
  induction l with
  | nil => intro d o h; cases h
  | cons a rest ih =>
    intro d o h
    rcases ha : hit a with _ | d0 <;>
      rcases hr : nearestHit hit rest with _ | ⟨e, p⟩ <;>
      simp only [nearestHit, ha, hr, Option.some.injEq, Prod.mk.injEq] at h
    · exact Option.noConfusion h
    · -- hit a = none, nearestHit rest = some (e, p) = some (d, o)
      obtain ⟨rfl, rfl⟩ := h
      obtain ⟨hm, hh⟩ := ih _ _ hr
      exact ⟨List.mem_cons_of_mem _ hm, hh⟩
    · -- hit a = some d0, nearestHit rest = none: report (d0, a)
      obtain ⟨rfl, rfl⟩ := h
      exact ⟨List.mem_cons_self _ _, ha⟩
    · -- hit a = some d0, nearestHit rest = some (e, p)
      split_ifs at h <;>
        simp only [Option.some.injEq, Prod.mk.injEq] at h <;>
        obtain ⟨rfl, rfl⟩ := h
      · exact ⟨List.mem_cons_self _ _, ha⟩
      · obtain ⟨hm, hh⟩ := ih _ _ hr
        exact ⟨List.mem_cons_of_mem _ hm, hh⟩

/-- The distance `nearestHit` reports is minimal among all reported
hits. -/
theorem nearestHit_min (hit : Object → Option ℚ) :
    ∀ (l : List Object) (d : ℚ) (o : Object),
      nearestHit hit l = some (d, o) →
      ∀ o2 ∈ l, ∀ e : ℚ, hit o2 = some e → d ≤ e := by
  intro l
  induction l with
  | nil => intro d o h; cases h
  | cons a rest ih =>
    intro d o h o2 ho2 e he
    rcases ha : hit a with _ | d0 <;>
      rcases hr : nearestHit hit rest with _ | ⟨e0, p⟩ <;>
      simp only [nearestHit, ha, hr, Option.some.injEq, Prod.mk.injEq] at h
    · exact Option.noConfusion h
    · -- hit a = none, nearestHit rest = some (e0, p) = some (d, o)
      obtain ⟨rfl, rfl⟩ := h
      rcases List.mem_cons.mp ho2 with rfl | hm
      · rw [ha] at he; exact Option.noConfusion he
      · exact ih _ _ hr o2 hm e he
    · -- hit a = some d0, nearestHit rest = none: report (d0, a)
      obtain ⟨rfl, rfl⟩ := h
      rcases List.mem_cons.mp ho2 with rfl | hm
      · rw [ha] at he
        cases Option.some.inj he
        exact le_refl _
      · rw [nearestHit_eq_none hit rest hr o2 hm] at he
        exact Option.noConfusion he
    · -- hit a = some d0, nearestHit rest = some (e0, p)
      split_ifs at h with hle <;>
        simp only [Option.some.injEq, Prod.mk.injEq] at h <;>
        obtain ⟨rfl, rfl⟩ := h
      · rcases List.mem_cons.mp ho2 with rfl | hm
        · rw [ha] at he
          cases Option.some.inj he
          exact le_refl _
        · exact le_trans hle (ih _ _ hr o2 hm e he)
      · rcases List.mem_cons.mp ho2 with rfl | hm
        · rw [ha] at he
          cases Option.some.inj he
          exact le_of_not_le hle
        · exact ih _ _ hr o2 hm e he

/-- The strict-min scan of `Scene::intersect`, started from an arbitrary
accumulator `(m, b)`, returns the leftmost minimum reported hit when that
beats `m` strictly, and the initial accumulator otherwise. -/
theorem foldl_scan_eq_nearestHit (hit : Object → Option ℚ) :
    ∀ (l : List Object) (m : ℚ) (b : Option Object),
      l.foldl (fun acc object =>
          match hit object with
          | some distance =>
              if distance < acc.1 then (distance, some object) else acc
          | none => acc) (m, b) =
        match nearestHit hit l with
        | none => (m, b)
        | some (d, o) => if d < m then (d, some o) else (m, b) := by
  intro l
  induction l with
  | nil => intro m b; rfl
  | cons o rest ih =>
    intro m b
    rw [List.foldl_cons]
    rcases ho : hit o with _ | d
    · simp only [ho, nearestHit]
      exact ih m b
    · simp only [ho, nearestHit]
      rcases hrest : nearestHit hit rest with _ | ⟨e, p⟩ <;>
        simp only [hrest] <;>
        split_ifs <;>
        simp only [ih, hrest] <;>
        split_ifs <;>
        first
          | rfl
          | (exfalso; linarith)

/-- C3 amended: provided every reported hit distance lies strictly below
the `f64::MAX` sentinel that initializes the scan, `Scene::intersect`
returns exactly what the spec describes: the minimum reported hit distance
together with the first primitive in insertion order attaining it (strict
less-than tie-break), and no primitive reference — with the sentinel as the
distance — when no primitive reports a hit.  Without the sentinel proviso
the claim fails: see the counterexample, where a primitive reports a hit at
exactly `f64::MAX` and the scan drops it. -/
theorem scene_intersect_returns_nearest_hit
    (sq : ℚ → ℚ) (s : Scene) (ray : Ray)
    (hbound : ∀ o ∈ s.objects, ∀ d ∈ o.intersect sq ray, d < f64MAX) :
    Scene.intersect sq s ray =
      (match nearestHit (fun o => o.intersect sq ray) s.objects with
       | none => (f64MAX, none)
       | some (d, o) => (d, some o)) ∧
    (∀ (d : ℚ) (o : Object),
      nearestHit (fun o => o.intersect sq ray) s.objects = some (d, o) →
      o ∈ s.objects ∧ o.intersect sq ray = some d ∧
        ∀ o2 ∈ s.objects, ∀ e : ℚ, o2.intersect sq ray = some e → d ≤ e) := by
  constructor
  · unfold Scene.intersect
    rw [foldl_scan_eq_nearestHit (fun o => o.intersect sq ray) s.objects
      f64MAX none]
    rcases hn : nearestHit (fun o => o.intersect sq ray) s.objects
      with _ | ⟨d, o⟩
    · rfl
    · obtain ⟨hm, hh⟩ := nearestHit_mem _ _ _ _ hn
      show (if d < f64MAX then (d, some o) else (f64MAX, none)) = (d, some o)
      rw [if_pos (hbound o hm d (Option.mem_def.mpr hh))]
  · intro d o hn
    obtain ⟨hm, hh⟩ := nearestHit_mem _ _ _ _ hn
    exact ⟨hm, hh, fun o2 hm2 e he => nearestHit_min _ _ _ _ hn o2 hm2 e he⟩

/-- Witness for the amended C3: two spheres in insertion order, hit at
distances 4 and 9; the scan returns distance 4 and the first sphere.  The
sqrt parameter is applied only to 1 (both discriminants are 1), where the
constant 1 agrees with `f64::sqrt`. -/
theorem scene_intersect_returns_nearest_hit_witness :
    (∀ o ∈ [Object.sphere ⟨⟨0, 0, -5⟩, 1, mat0⟩,
            Object.sphere ⟨⟨0, 0, -10⟩, 1, mat0⟩],
      ∀ d ∈ Object.intersect (fun _ => 1) o ⟨⟨0, 0, 0⟩, ⟨0, 0, -1⟩⟩,
        d < f64MAX) ∧
    Scene.intersect (fun _ => 1)
        ⟨[Object.sphere ⟨⟨0, 0, -5⟩, 1, mat0⟩,
          Object.sphere ⟨⟨0, 0, -10⟩, 1, mat0⟩], [], ⟨0, 0, 0⟩⟩
        ⟨⟨0, 0, 0⟩, ⟨0, 0, -1⟩⟩
      = (4, some (Object.sphere ⟨⟨0, 0, -5⟩, 1, mat0⟩)) := by
  have hb : ∀ o ∈ [Object.sphere ⟨⟨0, 0, -5⟩, 1, mat0⟩,
            Object.sphere ⟨⟨0, 0, -10⟩, 1, mat0⟩],
      ∀ d ∈ Object.intersect (fun _ => 1) o ⟨⟨0, 0, 0⟩, ⟨0, 0, -1⟩⟩,
        d < f64MAX := by
    norm_num [Object.intersect, Sphere.intersect, Vector.sub, Vector.dot,
      f64MAX, Option.mem_def]
  refine ⟨hb, ?_⟩
  have h1 := (scene_intersect_returns_nearest_hit (fun _ => 1)
    ⟨[Object.sphere ⟨⟨0, 0, -5⟩, 1, mat0⟩,
      Object.sphere ⟨⟨0, 0, -10⟩, 1, mat0⟩], [], ⟨0, 0, 0⟩⟩
    ⟨⟨0, 0, 0⟩, ⟨0, 0, -1⟩⟩ hb).1
  rw [h1]
  norm_num [nearestHit, Object.intersect, Sphere.intersect, Vector.sub,
    Vector.dot]

/-- Counterexample to C3 as stated: a primitive that reports a hit at
distance exactly `f64::MAX` — a plane at height −(2⁵³ − 1) reached by the
ray with direction (0, −2⁻⁹⁷¹, 0), every operation exact in f64 — is
silently dropped by the scan (`f64::MAX < f64::MAX` is false), so the scene
reports a hit distance `f64::MAX` with no primitive reference although a
primitive did report a hit. -/
theorem scene_intersect_max_distance_hit_dropped :
    Object.intersect (fun _ => 0)
      (Object.plane ⟨-(2 ^ 53 - 1), -1, 1, -1, 1, mat0⟩)
      ⟨⟨0, 0, 0⟩, ⟨0, -(1 / 2 ^ 971), 0⟩⟩ = some f64MAX ∧
    (Scene.intersect (fun _ => 0)
        ⟨[Object.plane ⟨-(2 ^ 53 - 1), -1, 1, -1, 1, mat0⟩], [], ⟨0, 0, 0⟩⟩
        ⟨⟨0, 0, 0⟩, ⟨0, -(1 / 2 ^ 971), 0⟩⟩).2 = none := by
  have h1 : Object.intersect (fun _ => 0)
      (Object.plane ⟨-(2 ^ 53 - 1), -1, 1, -1, 1, mat0⟩)
      ⟨⟨0, 0, 0⟩, ⟨0, -(1 / 2 ^ 971), 0⟩⟩ = some f64MAX := by
    norm_num [Object.intersect, Plane.intersect, Ray.extend, Vector.add,
      Vector.scale, f64MAX]
  refine ⟨h1, ?_⟩
  unfold Scene.intersect
  simp only [List.foldl_cons, List.foldl_nil, h1]
  rw [if_neg (lt_irrefl f64MAX)]

end Tyray
